import Mathlib

/-!
Verification development for the bluebeever email-categorization service
(`src/ai/app`).  The Python source is shallowly embedded: pure functions become
Lean functions over `String` / `List Char` / `ℚ`, stateful components
(`queue_manager.py`, `cache.py`) become explicit state passing, and fallible
calls return `Except`.  Floating-point settings and similarity scores are
modelled over `ℚ`; the sentence-transformer model and the cosine-similarity
kernel are opaque numeric collaborators and appear as function parameters,
exactly as the specification treats them ("an opaque function text → vector").
-/

namespace Bluebeever

/-- Python `a or b` on strings: the first operand if it is truthy (non-empty),
otherwise the second. -/
def pyOr (a b : String) : String := if a = "" then b else a

/-- The string whose SHA-256 digest `categorize_standalone_email` (service.py
line 173) and `categorize_threaded_email` (line 294) use as the
content-fingerprint cache key.  The source expression is
`request.subject or "" + request.body or ""`, which by Python operator
precedence (`+` binds tighter than `or`) parses as
`(subject or ("" + body)) or ""`.  SHA-256 is injective modulo collision, so
fingerprint equality is modelled as equality of this input string. -/
def contentFingerprintInput (subject body : String) : String :=
  pyOr (pyOr subject ("" ++ body)) ""

/-- The characters matched by Python's `\s` (and stripped by `str.strip()`) for
the ASCII texts this service handles. -/
def isPySpace (c : Char) : Bool :=
  c = ' ' || c = '\t' || c = '\n' || c = '\r' || c = '\x0b' || c = '\x0c'

/-- Python `str.strip()` on a character list. -/
def pyStrip (l : List Char) : List Char :=
  ((l.dropWhile isPySpace).reverse.dropWhile isPySpace).reverse

/-- Python `str.strip()` on a string. -/
def pyStripStr (s : String) : String := String.mk (pyStrip s.toList)

/-- Helper for `re.sub(r'\s+', ' ', s)`: the boolean flag records whether the
previous character was whitespace (so a run emits a single `' '`). -/
def collapseWsAux : List Char → Bool → List Char
  | [], _ => []
  | c :: cs, inRun =>
    if isPySpace c then
      if inRun then collapseWsAux cs true else ' ' :: collapseWsAux cs true
    else c :: collapseWsAux cs false

/-- `re.sub(r'\s+', ' ', s)`: every maximal whitespace run becomes one space. -/
def collapseWs (l : List Char) : List Char := collapseWsAux l false

/-- Case-insensitive prefix test: does `l` start with the (pre-lowercased)
pattern `pat`?  Models a regex literal under `re.IGNORECASE`. -/
def startsWithCI : List Char → List Char → Bool
  | _, [] => true
  | [], _ :: _ => false
  | c :: cs, p :: ps => (c.toLower = p) && startsWithCI cs ps

/-- Case-sensitive prefix test on character lists (Python `str.startswith`). -/
def listStartsWith : List Char → List Char → Bool
  | _, [] => true
  | [], _ :: _ => false
  | c :: cs, p :: ps => (c = p) && listStartsWith cs ps

/-- Python substring membership `pat in hay` on character lists. -/
def listContains : List Char → List Char → Bool
  | [], pat => pat.isEmpty
  | c :: cs, pat => listStartsWith (c :: cs) pat || listContains cs pat

/-- Python `needle in hay` on strings. -/
def strContainsSub (hay needle : String) : Bool :=
  listContains hay.toList needle.toList

/-!
## thread_utils.py — `ThreadUtils`
-/

/-- `re.sub(r'^(Re:|RE:|Fwd:|FWD:|Fw:)\s*', '', subject, flags=re.IGNORECASE)`:
strip one leading reply/forward marker (case-insensitive) together with the
whitespace that follows it.  The regex alternation is equivalent to trying the
case-insensitive literals `re:`, `fwd:`, `fw:` in turn at position 0. -/
def stripReplyMarker (l : List Char) : List Char :=
  if startsWithCI l "re:".toList then (l.drop 3).dropWhile isPySpace
  else if startsWithCI l "fwd:".toList then (l.drop 4).dropWhile isPySpace
  else if startsWithCI l "fw:".toList then (l.drop 3).dropWhile isPySpace
  else l

/-- `ThreadUtils.normalize_subject`: empty guard, strip one reply/forward
marker, collapse whitespace and strip, lower-case. -/
def normalize_subject (subject : String) : String :=
  if subject = "" then ""
  else String.mk ((pyStrip (collapseWs (stripReplyMarker subject.toList))).map Char.toLower)

/-- `ThreadUtils.is_thread_continuation`: false when either raw subject is
empty; otherwise equality of the normalized forms, or either normalized form
being a Python substring of the other. -/
def is_thread_continuation (current_subject thread_subject : String) : Bool :=
  if current_subject = "" ∨ thread_subject = "" then false
  else if normalize_subject current_subject = normalize_subject thread_subject then true
  else if strContainsSub (normalize_subject current_subject) (normalize_subject thread_subject) then true
  else if strContainsSub (normalize_subject thread_subject) (normalize_subject current_subject) then true
  else false

/-- In `categorize_threaded_email` the thread subject is fetched with
`getattr(request, 'thread_subject', None)`; `is_thread_continuation` treats
`None` like an empty subject (both are falsy). -/
def is_thread_continuation_opt (current : String) (thread : Option String) : Bool :=
  match thread with
  | none => false
  | some t => is_thread_continuation current t

/-!
## service.py — `clean_email_content` / `extract_meaningful_text`
-/

/-- One step of `re.sub(r'<[^>]+>', ' ', content)`: at a `'<'`, greedily take
the maximal run of non-`'>'` characters; if it is non-empty and followed by
`'>'`, the whole tag is consumed and the scan resumes after the `'>'`. -/
def tagSplit (cs : List Char) : Option (List Char) :=
  if cs.takeWhile (fun c => ¬ c = '>') = [] then none
  else
    match cs.dropWhile (fun c => ¬ c = '>') with
    | '>' :: rest => some rest
    | _ => none

/-- `re.sub(r'<[^>]+>', ' ', content)` by left-to-right scan, with a fuel
argument for structural recursion; `fuel = length of the list` always
suffices because each tag consumes at least two characters. -/
def removeTagsFuel : ℕ → List Char → List Char
  | 0, l => l
  | _ + 1, [] => []
  | fuel + 1, c :: cs =>
    if c = '<' then
      match tagSplit cs with
      | some rest => ' ' :: removeTagsFuel fuel rest
      | none => c :: removeTagsFuel fuel cs
    else c :: removeTagsFuel fuel cs

/-- Remove HTML tags, replacing each by one space. -/
def removeTags (l : List Char) : List Char := removeTagsFuel l.length l

/-- For `\n--\s*\n`: after `"\n--"`, is there a `'\n'` preceded only by
whitespace?  (Scanning: a newline succeeds, other whitespace continues,
anything else fails.) -/
def wsThenNewline : List Char → Bool
  | [] => false
  | c :: cs => if c = '\n' then true else if isPySpace c then wsThenNewline cs else false

/-- Does `l` begin with a match of `\n--\s*\n` (the signature delimiter)? -/
def sigDashMatchAt : List Char → Bool
  | '\n' :: '-' :: '-' :: rest => wsThenNewline rest
  | _ => false

/-- `re.sub(r'\n--\s*\n.*$', '', content, flags=DOTALL|IGNORECASE)`: with
`.*$` under DOTALL the match runs to the end of the string, so the content is
truncated at the leftmost match. -/
def applySigDash : List Char → List Char
  | [] => []
  | c :: cs => if sigDashMatchAt (c :: cs) then [] else c :: applySigDash cs

/-- `re.sub(r'\nSent from my.*$', '', content, flags=DOTALL|IGNORECASE)`:
truncate at the leftmost case-insensitive occurrence of `"\nsent from my"`. -/
def applySentFrom : List Char → List Char
  | [] => []
  | c :: cs =>
    if c = '\n' && startsWithCI cs "sent from my".toList then []
    else c :: applySentFrom cs

/-- Does `l` begin with a match of `\n(Best regards?|Thanks?|Sincerely),`
(case-insensitive)?  The optional `s?` unfolds into both literal variants. -/
def sigCloseMatchAt : List Char → Bool
  | '\n' :: rest =>
    startsWithCI rest "best regards,".toList || startsWithCI rest "best regard,".toList ||
    startsWithCI rest "thanks,".toList || startsWithCI rest "thank,".toList ||
    startsWithCI rest "sincerely,".toList
  | _ => false

/-- `re.sub(r'\n(Best regards?|Thanks?|Sincerely),.*$', '', content,
flags=DOTALL|IGNORECASE)`: truncate at the leftmost match. -/
def applySigClose : List Char → List Char
  | [] => []
  | c :: cs => if sigCloseMatchAt (c :: cs) then [] else c :: applySigClose cs

/-- Python `content.split('\n')`. -/
def splitLines : List Char → List (List Char)
  | [] => [[]]
  | c :: cs =>
    if c = '\n' then [] :: splitLines cs
    else
      match splitLines cs with
      | [] => [[c]]
      | l :: ls => (c :: l) :: ls

/-- `line.strip().startswith('>')`. -/
def lineIsQuoted (l : List Char) : Bool :=
  match l.dropWhile isPySpace with
  | '>' :: _ => true
  | _ => false

/-- `EmailCategorizationService.clean_email_content`: empty guard, HTML-tag
removal, the three signature patterns in source order, quoted-reply line
removal, whitespace collapse and strip. -/
def clean_email_content (content : String) : String :=
  if content = "" then ""
  else
    let l1 := removeTags content.toList
    let l2 := applySigClose (applySentFrom (applySigDash l1))
    let l3 := (splitLines l2).filter (fun line => ¬ lineIsQuoted line = true)
    let l4 := List.intercalate ['\n'] l3
    String.mk (pyStrip (collapseWs l4))

/-- `EmailCategorizationService.extract_meaningful_text`: truncate the raw
subject to `maxS` characters, clean the body and truncate to `maxB`
characters, join as `"subject. body"` when both parts are non-empty,
otherwise whichever is non-empty, otherwise the sentinel. -/
def extract_meaningful_text (maxS maxB : ℕ) (subject body : String) : String :=
  let subj := String.mk ((pyOr subject "").toList.take maxS)
  let cleaned := String.mk ((clean_email_content body).toList.take maxB)
  if subj ≠ "" ∧ cleaned ≠ "" then subj ++ ". " ++ cleaned
  else pyOr subj (pyOr cleaned "General email")

/-!
## service.py — `generate_embedding` over the `cachetools.TTLCache`

The module-level `embedding_cache` is a `cachetools.TTLCache`; it is modelled
as an association list of entries carrying an absolute expiry time.  The
cache key in the source is `f"emb_{hash(text.strip())}"`; Python's string
hash is deterministic within a process, so the key is modelled by the trimmed
text itself (a collision-free stand-in).
-/

structure TTLEntry where
  key : String
  value : List ℚ
  expiresAt : ℚ
  deriving DecidableEq, Repr

/-- `TTLCache.get`/`__getitem__` contract: the stored value while unexpired. -/
def ttlGet (now : ℚ) (k : String) (c : List TTLEntry) : Option (List ℚ) :=
  match c.find? (fun e => e.key = k) with
  | some e => if now < e.expiresAt then some e.value else none
  | none => none

/-- `TTLCache.__setitem__` contract: insert or overwrite the entry for `k`
with expiry `expiresAt` (capacity eviction of this external cache is not
modelled; it only removes entries and never changes stored values). -/
def ttlSet (expiresAt : ℚ) (k : String) (v : List ℚ) : List TTLEntry → List TTLEntry
  | [] => [⟨k, v, expiresAt⟩]
  | e :: es => if e.key = k then ⟨k, v, expiresAt⟩ :: es else e :: ttlSet expiresAt k v es

/-- Result of `generate_embedding`: the vector, the updated module-level
cache, and whether `self.model.encode` was invoked (instrumentation). -/
structure EmbedResult where
  vec : List ℚ
  cache : List TTLEntry
  modelInvoked : Bool
  deriving Repr

/-- `EmailCategorizationService.generate_embedding`.  `D` is
`self.embedding_dim`; `encode` is the opaque `self.model.encode`, returning
`.error` when the model invocation raises.  Empty/whitespace-only text short
circuits to the zero vector; a cache hit (`if cached:` — a non-empty list)
returns the cached vector; a model failure is absorbed into the zero
vector. -/
def generate_embedding (D : ℕ) (encode : String → Except Unit (List ℚ))
    (ttl now : ℚ) (cache : List TTLEntry) (text : String) : EmbedResult :=
  if pyStripStr text = "" then ⟨List.replicate D 0, cache, false⟩
  else
    match ttlGet now ("emb_" ++ pyStripStr text) cache with
    | some v =>
      if v ≠ [] then ⟨v, cache, false⟩
      else
        match encode text with
        | .ok emb => ⟨emb, ttlSet (now + ttl) ("emb_" ++ pyStripStr text) emb cache, true⟩
        | .error _ => ⟨List.replicate D 0, cache, true⟩
    | none =>
      match encode text with
      | .ok emb => ⟨emb, ttlSet (now + ttl) ("emb_" ++ pyStripStr text) emb cache, true⟩
      | .error _ => ⟨List.replicate D 0, cache, true⟩

/-!
## cache.py — `EmbeddingCache`

The hand-written thread-safe cache (every operation runs under one lock, so
operations are modelled as atomic steps on the state).  Entries carry their
insertion timestamp; the backing dict is insertion-ordered with unique keys.
-/

structure ECacheEntry where
  key : String
  value : List ℚ
  timestamp : ℚ
  deriving DecidableEq, Repr

structure EmbeddingCache where
  max_size : ℕ
  ttl : ℚ
  cache : List ECacheEntry
  deriving Repr

/-- Python dict assignment: overwrite in place if the key is present
(keeping its position), otherwise append. -/
def dictAssign (k : String) (v : List ℚ) (t : ℚ) : List ECacheEntry → List ECacheEntry
  | [] => [⟨k, v, t⟩]
  | e :: es => if e.key = k then ⟨k, v, t⟩ :: es else e :: dictAssign k v t es

/-- `min(self._cache.keys(), key=lambda k: self._cache[k][1])`: the first
entry (in insertion order) attaining the minimal timestamp. -/
def oldestEntry : List ECacheEntry → Option ECacheEntry
  | [] => none
  | e :: es =>
    match oldestEntry es with
    | none => some e
    | some m => if e.timestamp ≤ m.timestamp then some e else some m

/-- `EmbeddingCache.get`: return the entry's vector while its age is below
the TTL; delete it lazily once expired. -/
def EmbeddingCache.get (c : EmbeddingCache) (now : ℚ) (k : String) :
    Option (List ℚ) × EmbeddingCache :=
  match c.cache.find? (fun e => e.key = k) with
  | some e =>
    if now - e.timestamp < c.ttl then (some e.value, c)
    else (none, { c with cache := c.cache.filter (fun e' => ¬ e'.key = k) })
  | none => (none, c)

/-- `EmbeddingCache.set`: when `len(cache) >= max_size` first delete the
timestamp-oldest entry, then assign.  (With `max_size = 0` the Python `min`
over an empty dict would raise; that state is unreachable for the
configured `max_size ≥ 1` and the model leaves the dict unchanged.) -/
def EmbeddingCache.set (c : EmbeddingCache) (now : ℚ) (k : String) (v : List ℚ) :
    EmbeddingCache :=
  let base :=
    if c.max_size ≤ c.cache.length then
      match oldestEntry c.cache with
      | some m => c.cache.filter (fun e => ¬ e.key = m.key)
      | none => c.cache
    else c.cache
  { c with cache := dictAssign k v now base }

/-- `EmbeddingCache.clear`. -/
def EmbeddingCache.clear (c : EmbeddingCache) : EmbeddingCache :=
  { c with cache := [] }

/-- One client operation against the embedding cache. -/
inductive ECacheOp
  | get (now : ℚ) (k : String)
  | set (now : ℚ) (k : String) (v : List ℚ)
  | clear

/-- Apply one operation (the result of a `get` is discarded for state
evolution). -/
def ECacheOp.apply (c : EmbeddingCache) : ECacheOp → EmbeddingCache
  | .get now k => (EmbeddingCache.get c now k).2
  | .set now k v => EmbeddingCache.set c now k v
  | .clear => EmbeddingCache.clear c

/-- Run a sequence of operations from an initial state. -/
def runECacheOps (init : EmbeddingCache) (ops : List ECacheOp) : EmbeddingCache :=
  ops.foldl ECacheOp.apply init

/-!
## models.py / crud.py — `Category` rows and the CRUD operations used by the
matching engine
-/

/-- A `Category` row (models.py).  `embedding` is the nullable JSON column;
`created_at` carries no behaviour and is omitted. -/
structure VCategory where
  id : ℕ
  name : String
  description : Option String
  embedding : Option (List ℚ)
  sample_content : Option String
  email_count : ℕ
  deriving DecidableEq, Repr

/-- `Category.embedding_vector`: the stored embedding, or `[]` when null. -/
def VCategory.embedding_vector (c : VCategory) : List ℚ := c.embedding.getD []

/-- `crud.get_category_by_name`: first row whose name matches
case-insensitively (`func.lower`). -/
def get_category_by_name (db : List VCategory) (name : String) : Option VCategory :=
  db.find? (fun c => c.name.toList.map Char.toLower = name.toList.map Char.toLower)

/-- `crud.update_category_email_count`: increment the email count of the
first row with the given id. -/
def update_category_email_count (db : List VCategory) (cid : ℕ) (inc : ℕ) :
    List VCategory :=
  match db with
  | [] => []
  | c :: cs =>
    if c.id = cid then { c with email_count := c.email_count + inc } :: cs
    else c :: update_category_email_count cs cid inc

/-- Auto-increment primary key for a fresh row. -/
def freshId (db : List VCategory) : ℕ :=
  db.foldl (fun m c => max m c.id) 0 + 1

/-- `crud.create_category`: insert a row with `embedding=embedding or []`,
`email_count=0`; returns the refreshed row and the new table. -/
def create_category (db : List VCategory) (name : String) (description : Option String)
    (embedding : Option (List ℚ)) (sample : Option String) : VCategory × List VCategory :=
  let row : VCategory :=
    { id := freshId db, name := name, description := description,
      embedding := some (embedding.getD []), sample_content := sample, email_count := 0 }
  (row, db ++ [row])

/-- `crud.get_categories(db, limit=n)`. -/
def get_categories (db : List VCategory) (limit : ℕ) : List VCategory :=
  db.take limit

/-!
## vector_store.py — the in-memory similarity search

The cosine kernel (`sklearn.metrics.pairwise.cosine_similarity`) is an opaque
numeric collaborator and appears as the parameter `cosSim`.  The source's
`similarities.sort(key=lambda x: x[1], reverse=True)` is Python's stable sort
in descending score order; it is modelled by a stable insertion sort.
-/

/-- Insert a scored pair into a descending-sorted list, after all pairs with
a score `≥` its own (stability: earlier equal scores stay in front). -/
def insertDescBySnd (x : VCategory × ℚ) : List (VCategory × ℚ) → List (VCategory × ℚ)
  | [] => [x]
  | y :: ys => if x.2 ≤ y.2 then y :: insertDescBySnd x ys else x :: y :: ys

/-- Stable descending sort by score (Python `list.sort(key=…, reverse=True)`). -/
def sortDescBySnd (l : List (VCategory × ℚ)) : List (VCategory × ℚ) :=
  l.foldl (fun acc x => insertDescBySnd x acc) []

/-- Descending-sortedness by score. -/
def SortedDesc (l : List (VCategory × ℚ)) : Prop :=
  List.Pairwise (fun a b => b.2 ≤ a.2) l

/-- The loop body of `_find_similar_in_memory`: skip a candidate whose
embedding is missing/empty (`if not category.embedding_vector`) or whose
dimension differs from the query's (the numpy shape check), otherwise score
it and keep it when the score reaches the threshold. -/
def similarCandidates (cosSim : List ℚ → List ℚ → ℚ) (query : List ℚ) (threshold : ℚ)
    (categories : List VCategory) : List (VCategory × ℚ) :=
  categories.filterMap (fun category =>
    if category.embedding_vector = [] then none
    else if ¬ query.length = category.embedding_vector.length then none
    else
      let s := cosSim query category.embedding_vector
      if threshold ≤ s then some (category, s) else none)

/-- `VectorStore._find_similar_in_memory`: scan at most
`settings.max_categories_to_check` rows, filter and score them, sort
descending by score (stable), return the top `limit`. -/
def find_similar_in_memory (cosSim : List ℚ → List ℚ → ℚ) (maxCheck : ℕ)
    (db : List VCategory) (query : List ℚ) (threshold : ℚ) (limit : ℕ) :
    List (VCategory × ℚ) :=
  (sortDescBySnd (similarCandidates cosSim query threshold (get_categories db maxCheck))).take limit

/-- `VectorStore.find_similar_categories` for a deployment without the
native pgvector operator (`use_pgvector = false`; the pgvector path is
excluded SQL glue that falls back to this one on any error). -/
def find_similar_categories (cosSim : List ℚ → List ℚ → ℚ) (maxCheck : ℕ)
    (db : List VCategory) (query : List ℚ) (threshold : ℚ) (limit : ℕ) :
    List (VCategory × ℚ) :=
  find_similar_in_memory cosSim maxCheck db query threshold limit

/-!
## queue_manager.py — the dual-tier result cache of `RabbitMQManager`

`_result_cache` / `_result_cache_expiry` are Python dicts (association lists
here); the durable tier is the `category_results` RabbitMQ queue, a FIFO list
of `(key, result)` messages.  Broker availability is a boolean parameter: a
`false` models `connect`/`queue_declare`/`basic_publish`/`basic_get` raising
(all of which precede every in-memory write in the source).
-/

/-- `CategorizationResponse` (schemas.py), the payload cached by the
pipeline: `email_id`, `assigned_category`, `confidence_score`,
`is_new_category`, `processing_timestamp` (`datetime.now()`, passed in as
`now`), `category_description`.  The schema declares no `user_id` field;
the `user_id=` keyword that `_create_response` passes is an extra kwarg
that pydantic silently drops. -/
structure CatResponse where
  email_id : String
  assigned_category : String
  confidence_score : ℚ
  is_new_category : Bool
  processing_timestamp : ℚ
  category_description : Option String
  deriving DecidableEq, Repr

/-- Python dict lookup over an association list. -/
def alookup {α : Type} (k : String) (l : List (String × α)) : Option α :=
  (l.find? (fun p => p.1 = k)).map (fun p => p.2)

/-- Python dict assignment: overwrite in place, else append. -/
def aset {α : Type} (k : String) (v : α) : List (String × α) → List (String × α)
  | [] => [(k, v)]
  | p :: ps => if p.1 = k then (k, v) :: ps else p :: aset k v ps

/-- The `basic_get`/`ack`/`nack(requeue=True)` scan of `get_cached_result`:
take the first message whose key matches, leaving the others in place in
order; `none` when no message matches. -/
def brokerFind (key : String) : List (String × CatResponse) →
    Option (CatResponse × List (String × CatResponse))
  | [] => none
  | (k, v) :: rest =>
    if k = key then some (v, rest)
    else
      match brokerFind key rest with
      | some (r, rest') => some (r, (k, v) :: rest')
      | none => none

/-- Mutable state of the `RabbitMQManager` result cache. -/
structure QMState where
  resultCache : List (String × CatResponse)
  resultCacheExpiry : List (String × ℚ)
  broker : List (String × CatResponse)
  cacheHits : ℕ
  cacheMisses : ℕ
  resultCacheTtl : ℚ
  deriving Repr

/-- The `try:` body of `RabbitMQManager.cache_result`: publish the message to
the durable queue, then write the in-memory entry and its expiry.  When the
broker interaction raises (`brokerOk = false`) the body aborts before any
in-memory write. -/
def QMState.cacheResultBody (s : QMState) (brokerOk : Bool) (now : ℚ) (key : String)
    (result : CatResponse) : Except Unit QMState :=
  if brokerOk then
    .ok { s with
      broker := s.broker ++ [(key, result)],
      resultCache := aset key result s.resultCache,
      resultCacheExpiry := aset key (now + s.resultCacheTtl) s.resultCacheExpiry }
  else .error ()

/-- `RabbitMQManager.cache_result`: the body's exception is caught and
logged; the call always returns with whatever state the body reached. -/
def QMState.cacheResult (s : QMState) (brokerOk : Bool) (now : ℚ) (key : String)
    (result : CatResponse) : QMState :=
  match s.cacheResultBody brokerOk now key result with
  | .ok s' => s'
  | .error _ => s

/-- `RabbitMQManager.get_cached_result`: fast path through the in-memory
tier (`key in self._result_cache and self._result_cache_expiry.get(key, 0) >
now`), else scan the durable tier, promoting a hit into the in-memory tier;
any broker exception is caught and counted as a miss. -/
def QMState.getCachedResult (s : QMState) (brokerOk : Bool) (now : ℚ) (key : String) :
    Option CatResponse × QMState :=
  if (alookup key s.resultCache).isSome ∧ now < (alookup key s.resultCacheExpiry).getD 0 then
    (alookup key s.resultCache, { s with cacheHits := s.cacheHits + 1 })
  else if ¬ brokerOk = true then
    (none, { s with cacheMisses := s.cacheMisses + 1 })
  else
    match brokerFind key s.broker with
    | some (r, rest) =>
      (some r, { s with
        resultCache := aset key r s.resultCache,
        resultCacheExpiry := aset key (now + s.resultCacheTtl) s.resultCacheExpiry,
        broker := rest,
        cacheHits := s.cacheHits + 1 })
    | none => (none, { s with cacheMisses := s.cacheMisses + 1 })

/-!
## service.py — the categorization engine

`EmailCategorizationService` holds the opaque model, the canonical keyword
table and its precomputed embeddings; they are bundled into `ServiceEnv`.
The per-request mutable state (result cache, embedding cache, category
table, and a matcher call counter — the "call-count instrumentation on the
matcher" of spec scenario C) is `ServiceState`.
-/

/-- The class-level `CANONICAL_CATEGORIES` table, in dict-literal order. -/
def CANONICAL_CATEGORIES : List (String × List String) := [
  ("work", ["work", "business", "meeting", "project", "team", "client", "office",
            "manager", "colleague", "deadline", "report"]),
  ("finance", ["payment", "invoice", "bill", "bank", "money", "expense", "salary",
               "tax", "loan", "account", "transaction"]),
  ("travel", ["flight", "hotel", "trip", "travel", "booking", "reservation",
              "ticket", "itinerary", "airport", "car rental"]),
  ("personal", ["family", "friend", "personal", "vacation", "party", "wedding",
                "birthday", "anniversary", "baby", "home"]),
  ("shopping", ["order", "purchase", "shipping", "delivery", "cart", "store",
                "item", "product", "sale", "discount", "receipt"]),
  ("health", ["doctor", "appointment", "health", "medical", "clinic", "hospital",
              "pharmacy", "insurance", "test", "vaccine"]),
  ("education", ["school", "university", "college", "course", "class", "exam",
                 "assignment", "lecture", "student", "teacher"]),
  ("entertainment", ["movie", "music", "concert", "show", "event", "game",
                     "festival", "theater", "series", "tv"]),
  ("tech", ["software", "hardware", "computer", "laptop", "phone", "app",
            "update", "bug", "feature", "release", "account"]),
  ("food", ["restaurant", "food", "dinner", "lunch", "breakfast", "menu",
            "recipe", "cook", "cafe", "bar", "drink"]),
  ("general", [])]

/-- Constructor-time environment of `EmailCategorizationService` plus the
settings it reads.  `encode` is `self.model.encode` (`.error` = the call
raises); `cosSim` is the sklearn cosine kernel; `canonicalEmbeddings` is the
state left by `_precompute_canonical_embeddings`. -/
structure ServiceEnv where
  D : ℕ
  encode : String → Except Unit (List ℚ)
  cosSim : List ℚ → List ℚ → ℚ
  maxSubjectChars : ℕ
  maxBodyChars : ℕ
  categoryMatchThreshold : ℚ
  threadConsistencyThreshold : ℚ
  confidenceBoost : ℚ
  maxCategoriesToCheck : ℕ
  embeddingCacheTtl : ℚ
  embeddingThreshold : ℚ
  canonicalCategories : List (String × List String)
  canonicalEmbeddings : List (String × List ℚ)

/-- `EmailCategorizationService._calculate_similarity` delegates to the
opaque cosine kernel (its `try/except` guards numpy shape errors, which the
total model `cosSim` does not produce). -/
def calculate_similarity (cosSim : List ℚ → List ℚ → ℚ) (e1 e2 : List ℚ) : ℚ :=
  cosSim e1 e2

/-- `EmailCategorizationService.generate_category_name`: first canonical
whose keyword list intersects the lower-cased text (dict iteration order);
otherwise embed the text (a model failure propagates) and take the
strictly-best canonical by similarity, falling back to `"general"` below the
secondary threshold. -/
def generate_category_name (env : ServiceEnv) (text : String) : Except Unit String :=
  let textLower := String.mk (text.toList.map Char.toLower)
  match env.canonicalCategories.find? (fun p => p.2.any (fun kw => strContainsSub textLower kw)) with
  | some p => .ok p.1
  | none =>
    match env.encode text with
    | .error e => .error e
    | .ok inputEmb =>
      let best := env.canonicalEmbeddings.foldl (fun acc p =>
        if acc.2 < calculate_similarity env.cosSim inputEmb p.2 then
          (p.1, calculate_similarity env.cosSim inputEmb p.2)
        else acc) ("general", 0)
      if env.embeddingThreshold ≤ best.2 then .ok best.1 else .ok "general"

/-- `StandaloneEmailRequest` (schemas.py): the fields the engine reads.
The schema defines `email_id`, `subject`, `body`, `snippet` (plus sender,
recipients, timestamp and labels, which the engine never reads) — and NO
`user_id`, although service.py reads `request.user_id` at every
response-constructing site; each such read raises `AttributeError`. -/
structure StandaloneRequest where
  email_id : String
  subject : String
  body : String
  snippet : String
  deriving Repr

/-- `ThreadedEmailRequest` (schemas.py): the fields the engine reads (the
source fetches the thread fields defensively with `getattr(…, None)`).
Like the standalone schema it defines NO `user_id`, so the reads of
`request.user_id` at service.py lines 289 and 312 raise
`AttributeError`. -/
structure ThreadedRequest where
  email_id : String
  subject : String
  body : String
  snippet : String
  thread_subject : Option String
  previous_category : Option String
  deriving Repr

/-- Exceptions the categorization bodies can raise: `AttributeError`
(tagged with the missing attribute name) and a model-invocation failure. -/
inductive PyErr
  | attributeError (attr : String)
  | modelError
  deriving DecidableEq, Repr

instance instDecEqExcept {ε α : Type} [DecidableEq ε] [DecidableEq α] :
    DecidableEq (Except ε α) := fun a b =>
  match a, b with
  | .error x, .error y =>
    if h : x = y then isTrue (congrArg Except.error h)
    else isFalse (fun hc => h (Except.error.inj hc))
  | .ok x, .ok y =>
    if h : x = y then isTrue (congrArg Except.ok h)
    else isFalse (fun hc => h (Except.ok.inj hc))
  | .error _, .ok _ => isFalse (fun hc => Except.noConfusion hc)
  | .ok _, .error _ => isFalse (fun hc => Except.noConfusion hc)

/-- Mutable state threaded through one categorization request. -/
structure ServiceState where
  qm : QMState
  embCache : List TTLEntry
  db : List VCategory
  matcherCalls : ℕ

/-- `EmailCategorizationService._create_response`.  The method accepts a
`user_id` argument and passes `user_id=user_id` to
`CategorizationResponse`, but the schema declares no such field, so
pydantic drops the extra keyword and the response carries no user id.
(In the engine the call sites never get this far: evaluating the
`request.user_id` argument raises first.) -/
def create_response (now : ℚ) (email_id _user_id category : String) (confidence : ℚ)
    (is_new : Bool) (description : Option String) : CatResponse :=
  ⟨email_id, category, confidence, is_new, now, description⟩

/-- `EmailCategorizationService._create_new_category_response`: canonicalize
the name (lower-case, strip; the `get_category_by_name` check in the source
assigns the same name on both branches), create the category with an
auto-generated description and the snippet as sample content, increment its
count to 1 — and then raise: the closing
`self._create_response(request.email_id, request.user_id, …)` (service.py
line 373) reads `request.user_id`, which `StandaloneEmailRequest` does not
define, so `AttributeError` escapes after the row was created and
counted. -/
def create_new_category_response (s : ServiceState) (req : StandaloneRequest)
    (category_name : String) (embedding : List ℚ) : Except PyErr CatResponse × ServiceState :=
  let canonical := pyStripStr (String.mk (category_name.toList.map Char.toLower))
  let descr := some ("Auto-generated: " ++ String.mk (req.subject.toList.take 50) ++ "...")
  let cnew := create_category s.db canonical descr (some embedding) (some req.snippet)
  let db2 := update_category_email_count cnew.2 cnew.1.id 1
  (.error (PyErr.attributeError "user_id"), { s with db := db2 })

/-- `EmailCategorizationService._fallback_response`: look up (or create) the
fixed `"General"` category and increment its count — and then raise: the
closing `self._create_response(request.email_id, request.user_id, "General",
0.5, False, …)` (service.py line 388) reads `request.user_id`, which neither
request schema defines, so the intended General/0.5 response is never built
and `AttributeError` escapes the handler after the row was counted. -/
def fallback_response (s : ServiceState) : Except PyErr CatResponse × ServiceState :=
  let gcdb :=
    match get_category_by_name s.db "General" with
    | some c => (c, s.db)
    | none => create_category s.db "General" (some "General email category") none none
  let db2 := update_category_email_count gcdb.2 gcdb.1.id 1
  (.error (PyErr.attributeError "user_id"), { s with db := db2 })

/-- The `try:` body of `categorize_standalone_email`: result-cache lookups by
email id and by content fingerprint (cache hits return the cached payload
and are the only paths that complete), then embedding and the similarity
match with `limit = 1`.  Every non-cached path then raises: the match path
increments the matched category's count and raises `AttributeError` at the
`request.user_id` argument of `_create_response` (service.py line 210); a
`"general"` naming outcome raises at the undefined method
`self._extract_better_category_name` (line 227); minting a category creates
and counts the row before raising at `request.user_id` (line 373).  The
pair returns the Python outcome together with the state reached at that
point (side effects before an exception persist); the caching of the
response (lines 214/215 and 234/235) is never reached. -/
def categorize_standalone_body (env : ServiceEnv) (brokerOk : Bool) (now : ℚ)
    (s : ServiceState) (req : StandaloneRequest) : Except PyErr CatResponse × ServiceState :=
  let content_hash := contentFingerprintInput req.subject req.body
  match QMState.getCachedResult s.qm brokerOk now req.email_id with
  | (some cached, qm1) => (.ok cached, { s with qm := qm1 })
  | (none, qm1) =>
    match QMState.getCachedResult qm1 brokerOk now content_hash with
    | (some cached, qm2) => (.ok cached, { s with qm := qm2 })
    | (none, qm2) =>
      let meaningful := extract_meaningful_text env.maxSubjectChars env.maxBodyChars req.subject req.body
      let er := generate_embedding env.D env.encode env.embeddingCacheTtl now s.embCache meaningful
      let s1 : ServiceState := { s with qm := qm2, embCache := er.cache }
      let similar := find_similar_categories env.cosSim env.maxCategoriesToCheck s1.db er.vec
        env.categoryMatchThreshold 1
      let s2 : ServiceState := { s1 with matcherCalls := s1.matcherCalls + 1 }
      match similar with
      | (category, _) :: _ =>
        let db2 := update_category_email_count s2.db category.id 1
        (.error (PyErr.attributeError "user_id"), { s2 with db := db2 })
      | [] =>
        match generate_category_name env meaningful with
        | .error _ => (.error .modelError, s2)
        | .ok category_name =>
          if category_name = "general" then
            (.error (PyErr.attributeError "_extract_better_category_name"), s2)
          else create_new_category_response s2 req category_name er.vec

/-- `categorize_standalone_email`: the body under its `except`, which routes
any exception to `_fallback_response` — which itself raises at
`request.user_id`, so a caught exception still leaves the function raising
`AttributeError` (after the General row was counted). -/
def categorize_standalone_email (env : ServiceEnv) (brokerOk : Bool) (now : ℚ)
    (s : ServiceState) (req : StandaloneRequest) : Except PyErr CatResponse × ServiceState :=
  match categorize_standalone_body env brokerOk now s req with
  | (.ok r, s') => (.ok r, s')
  | (.error _, s') => fallback_response s' 

/-- The `try:` body of `categorize_threaded_email`: when a previous category
is supplied, resolvable, and has a usable embedding, and the subject
continues the thread, compare the fresh embedding to the previous category's
one; at or above the thread-consistency threshold the source bumps the
category's count (service.py line 283) — and then raises `AttributeError`
at the `request.user_id` argument of `_create_response` (line 289), never
consulting the similarity matcher and never building the response.  Every
other branch falls through to constructing a `StandaloneEmailRequest` with
`user_id=request.user_id` (line 312), which raises the same
`AttributeError` before the standalone engine is entered. -/
def categorize_threaded_body (env : ServiceEnv) (_brokerOk : Bool) (now : ℚ)
    (s : ServiceState) (req : ThreadedRequest) : Except PyErr CatResponse × ServiceState :=
  let fallthrough := fun (st : ServiceState) =>
    ((Except.error (PyErr.attributeError "user_id") : Except PyErr CatResponse), st)
  match req.previous_category with
  | none => fallthrough s
  | some pc =>
    if pc = "" then fallthrough s
    else
      match get_category_by_name s.db pc with
      | none => fallthrough s
      | some prev =>
        if prev.embedding_vector = [] then fallthrough s
        else if is_thread_continuation_opt req.subject req.thread_subject then
          let meaningful := extract_meaningful_text env.maxSubjectChars env.maxBodyChars
            req.subject req.body
          let er := generate_embedding env.D env.encode env.embeddingCacheTtl now
            s.embCache meaningful
          let s1 : ServiceState := { s with embCache := er.cache }
          let similarity := calculate_similarity env.cosSim er.vec prev.embedding_vector
          if env.threadConsistencyThreshold ≤ similarity then
            let db2 := update_category_email_count s1.db prev.id 1
            (.error (PyErr.attributeError "user_id"), { s1 with db := db2 })
          else fallthrough s1
        else fallthrough s

/-- `categorize_threaded_email`: the body under its `except`, whose
`_fallback_response` counts the General row and then raises again at
`request.user_id`, so the exception propagates to the caller. -/
def categorize_threaded_email (env : ServiceEnv) (brokerOk : Bool) (now : ℚ)
    (s : ServiceState) (req : ThreadedRequest) : Except PyErr CatResponse × ServiceState :=
  match categorize_threaded_body env brokerOk now s req with
  | (.ok r, s') => (.ok r, s')
  | (.error _, s') => fallback_response s' 

/-- A concrete environment for closed evaluations: a three-dimensional model
that embeds everything to the zero vector, the default thresholds of
config.py, the canonical table, and zero canonical embeddings. -/
def testEnv : ServiceEnv :=
  { D := 3, encode := fun _ => .ok [0, 0, 0], cosSim := fun _ _ => 0,
    maxSubjectChars := 200, maxBodyChars := 500,
    categoryMatchThreshold := mkRat 7 10, threadConsistencyThreshold := mkRat 1 2,
    confidenceBoost := mkRat 1 5, maxCategoriesToCheck := 1000,
    embeddingCacheTtl := 7200, embeddingThreshold := mkRat 1 2,
    canonicalCategories := CANONICAL_CATEGORIES,
    canonicalEmbeddings := CANONICAL_CATEGORIES.map (fun p => (p.1, [0, 0, 0])) }

/-- An empty result cache with the default TTL. -/
def emptyQM : QMState := ⟨[], [], [], 0, 0, 7200⟩

/-- A fresh service state: empty caches, empty category table. -/
def emptyServiceState : ServiceState := ⟨emptyQM, [], [], 0⟩

/-- A variant of the concrete environment whose cosine kernel always
reports similarity 1 (for exercising the thread-consistency path). -/
def threadTestEnv : ServiceEnv :=
  { testEnv with cosSim := fun _ _ => 1 }

/-- A one-row category table holding a `"finance"` category with an
embedding. -/
def financeDb : List VCategory :=
  [{ id := 1, name := "finance", description := some "money matters",
     embedding := some [1, 0, 0], sample_content := none, email_count := 3 }]

/-- A threaded request continuing a `"finance"` thread. -/
def financeThreadReq : ThreadedRequest :=
  { email_id := "e9", subject := "Re: Budget review",
    body := "numbers attached", snippet := "numbers",
    thread_subject := some "Budget review", previous_category := some "finance" }

/-!
# Theorems
-/

/-- C1 (counterexample): the content fingerprint is not a hash of
subject‖body.  With the same non-empty subject `"a"` and the two different
bodies `"b"` and `"c"`, the hashed input strings are identical — hence so
are the SHA-256 fingerprints, and not by hash collision. -/
theorem C1_fingerprint_counterexample :
    contentFingerprintInput "a" "b" = contentFingerprintInput "a" "c" ∧
    ("a" : String) ≠ "" ∧ ("b" : String) ≠ "c" := by
  decide

/-- C1 (amended): the content-fingerprint cache key is a deterministic hash
whose input is the subject alone whenever the subject is non-empty, and the
body otherwise; requests with the same non-empty subject therefore share a
fingerprint regardless of body. -/
theorem C1_fingerprint_amended (subject body : String) :
    (subject ≠ "" → contentFingerprintInput subject body = subject) ∧
    (subject = "" → contentFingerprintInput subject body = body) := by
  constructor
  · intro hs
    simp [contentFingerprintInput, pyOr, hs]
  · intro hs
    subst hs
    by_cases hb : body = "" <;> simp [contentFingerprintInput, pyOr, hb]

/-- C1 (witness): the amended statement evaluated at `("a", "b")` and at
`("", "b")`. -/
theorem C1_fingerprint_amended_witness :
    contentFingerprintInput "a" "b" = "a" ∧ contentFingerprintInput "" "b" = "b" :=
  ⟨(C1_fingerprint_amended "a" "b").1 (by decide), (C1_fingerprint_amended "" "b").2 rfl⟩

/-- C3 (counterexample): the claimed biconditional fails when a raw subject
is empty: `is_thread_continuation "" "x"` is `false`, yet the normalized
form of `""` is the empty string, which is a substring of the other
normalized form. -/
theorem C3_continuation_counterexample :
    ¬ (is_thread_continuation "" "x" = true ↔
        (normalize_subject "" = normalize_subject "x" ∨
         strContainsSub (normalize_subject "") (normalize_subject "x") = true ∨
         strContainsSub (normalize_subject "x") (normalize_subject "") = true)) := by
  decide

/-- C3 (amended): for non-empty raw subjects, `is_thread_continuation`
returns true exactly when the normalized forms are equal or either
normalized form is a substring of the other. -/
theorem C3_continuation_amended (cs ts : String) (hc : cs ≠ "") (ht : ts ≠ "") :
    is_thread_continuation cs ts = true ↔
      (normalize_subject cs = normalize_subject ts ∨
       strContainsSub (normalize_subject cs) (normalize_subject ts) = true ∨
       strContainsSub (normalize_subject ts) (normalize_subject cs) = true) := by
  unfold is_thread_continuation
  rw [if_neg (by simp [hc, ht])]
  split_ifs with h1 h2 h3 <;> simp_all

/-- C3 (witness): the amended statement at the spec's two examples:
`is_continuation("Re: Budget review", "Budget review")` is true (via the
biconditional) and `is_continuation("Lunch plans", "Budget review")` is
false. -/
theorem C3_continuation_amended_witness :
    is_thread_continuation "Re: Budget review" "Budget review" = true ∧
    is_thread_continuation "Lunch plans" "Budget review" = false :=
  ⟨(C3_continuation_amended "Re: Budget review" "Budget review" (by decide) (by decide)).mpr
      (Or.inl (by decide)),
   by decide⟩

/-- C7 (counterexample): the normalizer is not idempotent.  With subject
`"a  b"` (two spaces) and empty body, the output `"a  b"` is returned with
the raw subject's whitespace intact; passing it back through with an empty
subject routes it through `clean_email_content`, which collapses the run
and yields `"a b"`. -/
theorem C7_normalizer_not_idempotent :
    extract_meaningful_text 200 500 "" (extract_meaningful_text 200 500 "a  b" "") ≠
      extract_meaningful_text 200 500 "a  b" "" := by
  decide

/-- C7 (amended): re-normalization leaves the output unchanged exactly on
already-clean outputs: whenever the produced string is a fixed point of the
body-cleaning pass and fits the body-truncation limit, passing it back
through with an empty subject returns it verbatim.  (It is non-empty by
construction; the counterexample shows the restriction is necessary because
the subject part is joined into the output untreated.) -/
theorem C7_normalizer_idempotent_amended (maxS maxB : ℕ) (subject body t : String)
    (_ht : extract_meaningful_text maxS maxB subject body = t)
    (hclean : clean_email_content t = t) (hlen : t.toList.length ≤ maxB)
    (hne : t ≠ "") :
    extract_meaningful_text maxS maxB "" t = t := by
  unfold extract_meaningful_text
  rw [hclean]
  have h2 : t.toList.take maxB = t.toList := List.take_of_length_le hlen
  rw [h2]
  have h3 : String.mk t.toList = t := rfl
  rw [h3]
  simp [pyOr, hne]

/-- C7 (witness): the amended statement at subject `"hello"`, empty body. -/
theorem C7_normalizer_idempotent_amended_witness :
    extract_meaningful_text 200 500 "" "hello" = "hello" :=
  C7_normalizer_idempotent_amended 200 500 "hello" "" "hello"
    (by decide) (by decide) (by decide) (by decide)

set_option maxRecDepth 10000 in
/-- C2 (code bug): in the scenario of the claim — empty result cache, no
category above the match threshold (empty table), no canonical keyword in
the text and every canonical-embedding similarity below the secondary
threshold, so that `generate_category_name` yields `"general"` — the source
calls the undefined method `_extract_better_category_name`, raising
`AttributeError`; the `except` handler's `_fallback_response` then creates
the `"General"` row, increments it to 1, and raises `AttributeError` again
at `request.user_id` (a field `StandaloneEmailRequest` does not define), so
`categorize_standalone_email` propagates the exception.  No `"general"`
category is created and no response with confidence 0.8 and
`is_new_category = true` (nor any response) is returned. -/
theorem C2_general_fallback_code_bug :
    generate_category_name testEnv (extract_meaningful_text 200 500 "xyzzy qwfp" "") =
      Except.ok "general" ∧
    find_similar_categories testEnv.cosSim 1000 ([] : List VCategory)
      (generate_embedding 3 testEnv.encode 7200 0 [] "xyzzy qwfp").vec (mkRat 7 10) 1 = [] ∧
    (categorize_standalone_body testEnv true 0 emptyServiceState
        ⟨"e1", "xyzzy qwfp", "", ""⟩).1 =
      Except.error (PyErr.attributeError "_extract_better_category_name") ∧
    (categorize_standalone_email testEnv true 0 emptyServiceState
        ⟨"e1", "xyzzy qwfp", "", ""⟩).1 = Except.error (PyErr.attributeError "user_id") ∧
    (categorize_standalone_email testEnv true 0 emptyServiceState
        ⟨"e1", "xyzzy qwfp", "", ""⟩).2.db =
      [{ id := 1, name := "General", description := some "General email category",
         embedding := some [], sample_content := none, email_count := 1 }] := by
  exact ⟨by decide, by decide, by decide, by decide, by decide⟩

/-- A successful TTL-cache lookup returns the value of a stored entry. -/
theorem ttlGet_exists_entry {now : ℚ} {k : String} {c : List TTLEntry} {v : List ℚ}
    (h : ttlGet now k c = some v) : ∃ e ∈ c, e.value = v := by
  unfold ttlGet at h
  cases hfind : c.find? (fun e => e.key = k) with
  | none => rw [hfind] at h; cases h
  | some e =>
    rw [hfind] at h
    dsimp only at h
    by_cases hexp : now < e.expiresAt
    · rw [if_pos hexp] at h
      exact ⟨e, List.mem_of_find?_eq_some hfind, Option.some.inj h⟩
    · rw [if_neg hexp] at h; cases h

/-- Exhaustive description of `generate_embedding` on non-blank text: a
non-empty cache hit (no model call), a successful model call (cached), or an
absorbed model failure. -/
theorem generate_embedding_cases (D : ℕ) (encode : String → Except Unit (List ℚ))
    (ttl now : ℚ) (cache : List TTLEntry) (text : String)
    (hstrip : ¬ pyStripStr text = "") :
    (∃ e ∈ cache, e.value ≠ [] ∧
      generate_embedding D encode ttl now cache text = ⟨e.value, cache, false⟩) ∨
    (∃ emb, encode text = .ok emb ∧
      generate_embedding D encode ttl now cache text =
        ⟨emb, ttlSet (now + ttl) ("emb_" ++ pyStripStr text) emb cache, true⟩) ∨
    (encode text = .error () ∧
      generate_embedding D encode ttl now cache text = ⟨List.replicate D 0, cache, true⟩) := by
  unfold generate_embedding
  rw [if_neg hstrip]
  cases hget : ttlGet now ("emb_" ++ pyStripStr text) cache with
  | some v =>
    by_cases hv : v = []
    · subst hv
      cases hE : encode text with
      | ok emb =>
        refine Or.inr (Or.inl ⟨emb, rfl, ?_⟩)
        dsimp only
        rw [if_neg (by simp)]
      | error u =>
        refine Or.inr (Or.inr ⟨rfl, ?_⟩)
        dsimp only
        rw [if_neg (by simp)]
    · obtain ⟨e, hmem, hval⟩ := ttlGet_exists_entry hget
      refine Or.inl ⟨e, hmem, by rw [hval]; exact hv, ?_⟩
      dsimp only
      rw [if_pos hv, hval]
  | none =>
    cases hE : encode text with
    | ok emb => exact Or.inr (Or.inl ⟨emb, rfl, rfl⟩)
    | error u => exact Or.inr (Or.inr ⟨rfl, rfl⟩)

/-- C6: `generate_embedding` always returns a vector of the model dimension
`D` (given the model contract that successful encodings have length `D` and
that the cache only holds such vectors); for empty or whitespace-only text
it returns the zero vector without invoking the model; and when the model
invocation raises, it returns the zero vector instead of propagating. -/
theorem C6_generate_embedding_dimension (D : ℕ) (encode : String → Except Unit (List ℚ))
    (ttl now : ℚ) (cache : List TTLEntry) (text : String)
    (hModel : ∀ s v, encode s = .ok v → v.length = D)
    (hCache : ∀ e ∈ cache, e.value.length = D) :
    (generate_embedding D encode ttl now cache text).vec.length = D ∧
    (pyStripStr text = "" →
      (generate_embedding D encode ttl now cache text).vec = List.replicate D 0 ∧
      (generate_embedding D encode ttl now cache text).modelInvoked = false) ∧
    ((generate_embedding D encode ttl now cache text).modelInvoked = true →
      encode text = .error () →
      (generate_embedding D encode ttl now cache text).vec = List.replicate D 0) := by
  by_cases hstrip : pyStripStr text = ""
  · simp [generate_embedding, hstrip]
  · rcases generate_embedding_cases D encode ttl now cache text hstrip with
      ⟨e, hmem, hne, heq⟩ | ⟨emb, hE, heq⟩ | ⟨hE, heq⟩
    · rw [heq]
      exact ⟨hCache e hmem, fun hs => absurd hs hstrip, fun hinv => by cases hinv⟩
    · rw [heq]
      refine ⟨hModel text emb hE, fun hs => absurd hs hstrip, fun _ hErr => ?_⟩
      rw [hE] at hErr; cases hErr
    · rw [heq]
      exact ⟨by simp, fun hs => absurd hs hstrip, fun _ _ => rfl⟩

/-- C6 (witness): the conclusions at a concrete failing model (`encode`
always raises), dimension 3, empty cache, text `"hi"`. -/
theorem C6_generate_embedding_dimension_witness :
    (generate_embedding 3 (fun _ => .error ()) 7200 0 [] "hi").vec.length = 3 ∧
    (generate_embedding 3 (fun _ => .error ()) 7200 0 [] "hi").vec = List.replicate 3 0 :=
  ⟨(C6_generate_embedding_dimension 3 (fun _ => .error ()) 7200 0 [] "hi"
      (fun s v h => by cases h) (fun e he => by cases he)).1,
   (C6_generate_embedding_dimension 3 (fun _ => .error ()) 7200 0 [] "hi"
      (fun s v h => by cases h) (fun e he => by cases he)).2.2 (by decide) rfl⟩

/-- Looking a key up right after assigning it yields the assigned value. -/
theorem alookup_aset_self {α : Type} (k : String) (v : α) (l : List (String × α)) :
    alookup k (aset k v l) = some v := by
  induction l with
  | nil => simp [alookup, aset]
  | cons p ps ih =>
    by_cases h : p.1 = k
    · simp [aset, h, alookup]
    · simp only [aset, if_neg h]
      simpa [alookup, List.find?_cons, h] using ih

/-- A lookup against a state whose in-memory tier has just been written for
`k` hits the fast path: it returns the stored result and bumps the hit
counter only. -/
theorem getCachedResult_fast_path (s : QMState) (b : Bool) (t t0 : ℚ) (k : String)
    (r : CatResponse) (q : QMState)
    (hqc : q.resultCache = aset k r s.resultCache)
    (hqe : q.resultCacheExpiry = aset k (t0 + s.resultCacheTtl) s.resultCacheExpiry)
    (hlt : t < t0 + s.resultCacheTtl) :
    QMState.getCachedResult q b t k = (some r, { q with cacheHits := q.cacheHits + 1 }) := by
  unfold QMState.getCachedResult
  rw [hqc, hqe, alookup_aset_self, alookup_aset_self]
  rw [if_pos ⟨rfl, hlt⟩]

/-- C9: after a successful `cache_result(k, r)`, two consecutive
`get_cached_result(k)` calls within the TTL both return `r` through the
in-memory fast path, incrementing the hit counter twice and leaving the
miss counter unchanged. -/
theorem C9_cache_then_double_lookup (s : QMState) (bOk1 bOk2 : Bool) (k : String)
    (r : CatResponse) (t0 t1 t2 : ℚ)
    (h1 : t1 < t0 + s.resultCacheTtl) (h2 : t2 < t0 + s.resultCacheTtl) :
    (QMState.getCachedResult (QMState.cacheResult s true t0 k r) bOk1 t1 k).1 = some r ∧
    (QMState.getCachedResult
      (QMState.getCachedResult (QMState.cacheResult s true t0 k r) bOk1 t1 k).2 bOk2 t2 k).1 =
      some r ∧
    (QMState.getCachedResult
      (QMState.getCachedResult (QMState.cacheResult s true t0 k r) bOk1 t1 k).2 bOk2 t2 k).2.cacheHits =
      s.cacheHits + 2 ∧
    (QMState.getCachedResult
      (QMState.getCachedResult (QMState.cacheResult s true t0 k r) bOk1 t1 k).2 bOk2 t2 k).2.cacheMisses =
      s.cacheMisses := by
  have hs1 : QMState.cacheResult s true t0 k r =
      { s with broker := s.broker ++ [(k, r)],
               resultCache := aset k r s.resultCache,
               resultCacheExpiry := aset k (t0 + s.resultCacheTtl) s.resultCacheExpiry } := rfl
  rw [hs1, getCachedResult_fast_path s bOk1 t1 t0 k r _ rfl rfl h1,
      getCachedResult_fast_path s bOk2 t2 t0 k r _ rfl rfl h2]
  exact ⟨rfl, rfl, rfl, rfl⟩

/-- C9 (witness): the statement at an empty cache state, key `"k"`, lookups
at times 1 and 2 against the default TTL 7200. -/
theorem C9_cache_then_double_lookup_witness :
    (QMState.getCachedResult
      (QMState.cacheResult emptyQM true 0 "k"
        (create_response 0 "e" "u" "work" 1 false none)) true 1 "k").1 =
      some (create_response 0 "e" "u" "work" 1 false none) :=
  (C9_cache_then_double_lookup emptyQM true true "k"
    (create_response 0 "e" "u" "work" 1 false none) 0 1 2
    (by simp only [emptyQM, zero_add]; decide) (by simp only [emptyQM, zero_add]; decide)).1

/-- C10: when publishing to the durable tier raises inside `cache_result`,
the body aborts with the exception, the exception is swallowed (the call
returns the state unchanged — in particular no in-memory entry and no
expiry timestamp are written), and a later lookup for the key that also
misses the durable tier reports a miss. -/
theorem C10_cache_result_failure (s : QMState) (bOk : Bool) (k : String) (r : CatResponse)
    (t0 t1 : ℚ) (hmem : alookup k s.resultCache = none)
    (hbro : brokerFind k s.broker = none) :
    QMState.cacheResultBody s false t0 k r = Except.error () ∧
    QMState.cacheResult s false t0 k r = s ∧
    (QMState.getCachedResult (QMState.cacheResult s false t0 k r) bOk t1 k).1 = none ∧
    (QMState.getCachedResult (QMState.cacheResult s false t0 k r) bOk t1 k).2.cacheMisses =
      s.cacheMisses + 1 ∧
    (QMState.getCachedResult (QMState.cacheResult s false t0 k r) bOk t1 k).2.cacheHits =
      s.cacheHits := by
  have hres : QMState.cacheResult s false t0 k r = s := rfl
  refine ⟨rfl, hres, ?_⟩
  rw [hres]
  have hnc : ¬ ((alookup k s.resultCache).isSome = true ∧
      t1 < (alookup k s.resultCacheExpiry).getD 0) := by
    rw [hmem]
    rintro ⟨hc, -⟩
    cases hc
  unfold QMState.getCachedResult
  rw [if_neg hnc]
  cases bOk with
  | false => exact ⟨rfl, rfl, rfl⟩
  | true =>
    rw [if_neg (by simp), hbro]
    exact ⟨rfl, rfl, rfl⟩

/-- C10 (witness): the statement at the empty cache state. -/
theorem C10_cache_result_failure_witness :
    QMState.cacheResult emptyQM false 0 "k" (create_response 0 "e" "u" "work" 1 false none) =
      emptyQM :=
  (C10_cache_result_failure emptyQM true "k" (create_response 0 "e" "u" "work" 1 false none)
    0 1 rfl rfl).2.1

/-- A non-empty cache always has an oldest entry. -/
theorem oldestEntry_isSome {l : List ECacheEntry} (h : l ≠ []) :
    ∃ m, oldestEntry l = some m := by
  cases l with
  | nil => exact absurd rfl h
  | cons e es =>
    unfold oldestEntry
    cases hrec : oldestEntry es with
    | none => exact ⟨e, rfl⟩
    | some m0 =>
      dsimp only
      by_cases hle : e.timestamp ≤ m0.timestamp
      · exact ⟨e, by rw [if_pos hle]⟩
      · exact ⟨m0, by rw [if_neg hle]⟩

/-- The entry reported by `oldestEntry` is a member attaining the minimal
timestamp. -/
theorem oldestEntry_spec {l : List ECacheEntry} {m : ECacheEntry}
    (h : oldestEntry l = some m) : m ∈ l ∧ ∀ e ∈ l, m.timestamp ≤ e.timestamp := by
  induction l generalizing m with
  | nil => cases h
  | cons e es ih =>
    unfold oldestEntry at h
    cases hrec : oldestEntry es with
    | none =>
      rw [hrec] at h
      dsimp only at h
      cases h
      cases es with
      | nil =>
        refine ⟨List.mem_cons_self _ _, ?_⟩
        intro x hx
        rcases List.mem_singleton.mp hx with rfl
        exact le_refl _
      | cons f fs =>
        obtain ⟨m0, hm0⟩ := oldestEntry_isSome (l := f :: fs) (by simp)
        rw [hm0] at hrec
        cases hrec
    | some m0 =>
      rw [hrec] at h
      dsimp only at h
      obtain ⟨hm0mem, hm0min⟩ := ih hrec
      by_cases hle : e.timestamp ≤ m0.timestamp
      · rw [if_pos hle] at h
        cases h
        refine ⟨List.mem_cons_self _ _, ?_⟩
        intro x hx
        rcases List.mem_cons.mp hx with rfl | hx
        · exact le_refl _
        · exact le_trans hle (hm0min x hx)
      · rw [if_neg hle] at h
        cases h
        refine ⟨List.mem_cons_of_mem _ hm0mem, ?_⟩
        intro x hx
        rcases List.mem_cons.mp hx with rfl | hx
        · exact le_of_not_le hle
        · exact hm0min x hx

/-- Dict assignment grows the table by at most one entry. -/
theorem dictAssign_length (k : String) (v : List ℚ) (t : ℚ) (l : List ECacheEntry) :
    (dictAssign k v t l).length ≤ l.length + 1 := by
  induction l with
  | nil => simp [dictAssign]
  | cons e es ih =>
    by_cases h : e.key = k
    · simp [dictAssign, h]
    · simp only [dictAssign, if_neg h, List.length_cons]
      exact Nat.succ_le_succ ih

/-- Deleting a present key strictly shrinks the table. -/
theorem filter_out_mem_length {l : List ECacheEntry} {m : ECacheEntry} (hm : m ∈ l) :
    (l.filter (fun e => ¬ e.key = m.key)).length < l.length := by
  induction l with
  | nil => cases hm
  | cons e es ih =>
    by_cases h : e.key = m.key
    · simp only [List.filter_cons, h]
      rw [if_neg (by simp)]
      exact Nat.lt_succ_of_le (List.length_filter_le _ _)
    · rcases List.mem_cons.mp hm with rfl | hm'
      · exact absurd rfl h
      · simp only [List.filter_cons]
        rw [if_pos (by simpa using h)]
        simpa using ih hm'

/-- The keys present after a dict assignment. -/
theorem dictAssign_mem_key (k : String) (v : List ℚ) (t : ℚ) (l : List ECacheEntry)
    (k' : String) :
    (∃ e ∈ dictAssign k v t l, e.key = k') ↔ (k' = k ∨ ∃ e ∈ l, e.key = k') := by
  induction l with
  | nil => simp [dictAssign, eq_comm]
  | cons e es ih =>
    by_cases h : e.key = k
    · subst h
      simp only [dictAssign, if_pos rfl]
      constructor
      · rintro ⟨x, hx, rfl⟩
        rcases List.mem_cons.mp hx with rfl | hx
        · exact Or.inl rfl
        · exact Or.inr ⟨x, List.mem_cons_of_mem _ hx, rfl⟩
      · rintro (rfl | ⟨x, hx, rfl⟩)
        · exact ⟨_, List.mem_cons_self _ _, rfl⟩
        · rcases List.mem_cons.mp hx with rfl | hx
          · exact ⟨_, List.mem_cons_self _ _, rfl⟩
          · exact ⟨x, List.mem_cons_of_mem _ hx, rfl⟩
    · simp only [dictAssign, if_neg h]
      constructor
      · rintro ⟨x, hx, rfl⟩
        rcases List.mem_cons.mp hx with rfl | hx
        · exact Or.inr ⟨x, List.mem_cons_self _ _, rfl⟩
        · rcases ih.mp ⟨x, hx, rfl⟩ with h1 | ⟨y, hy, hk⟩
          · exact Or.inl h1
          · exact Or.inr ⟨y, List.mem_cons_of_mem _ hy, hk⟩
      · rintro (rfl | ⟨x, hx, rfl⟩)
        · obtain ⟨y, hy, hk⟩ := ih.mpr (Or.inl rfl)
          exact ⟨y, List.mem_cons_of_mem _ hy, hk⟩
        · rcases List.mem_cons.mp hx with rfl | hx
          · exact ⟨x, List.mem_cons_self _ _, rfl⟩
          · obtain ⟨y, hy, hk⟩ := ih.mpr (Or.inr ⟨x, hx, rfl⟩)
            exact ⟨y, List.mem_cons_of_mem _ hy, hk⟩

/-- The keys present after deleting one key. -/
theorem filter_out_mem_key (l : List ECacheEntry) (K k' : String) :
    (∃ e ∈ l.filter (fun e => ¬ e.key = K), e.key = k') ↔
      ((∃ e ∈ l, e.key = k') ∧ ¬ k' = K) := by
  constructor
  · rintro ⟨x, hx, rfl⟩
    rw [List.mem_filter] at hx
    exact ⟨⟨x, hx.1, rfl⟩, by simpa using hx.2⟩
  · rintro ⟨⟨x, hx, rfl⟩, hk⟩
    exact ⟨x, List.mem_filter.mpr ⟨hx, by simpa using hk⟩, rfl⟩

/-- No cache operation changes the configured capacity or TTL. -/
theorem ecache_apply_preserves (c : EmbeddingCache) (op : ECacheOp) :
    (ECacheOp.apply c op).max_size = c.max_size ∧ (ECacheOp.apply c op).ttl = c.ttl := by
  cases op with
  | clear => exact ⟨rfl, rfl⟩
  | set now k v => exact ⟨rfl, rfl⟩
  | get now k =>
    dsimp only [ECacheOp.apply]
    unfold EmbeddingCache.get
    cases hf : c.cache.find? (fun e => e.key = k) with
    | none => exact ⟨rfl, rfl⟩
    | some e =>
      dsimp only
      by_cases ht : now - e.timestamp < c.ttl
      · rw [if_pos ht]; exact ⟨rfl, rfl⟩
      · rw [if_neg ht]; exact ⟨rfl, rfl⟩

/-- A single cache operation preserves the capacity bound. -/
theorem ecache_apply_bound (c : EmbeddingCache) (op : ECacheOp) (hmax : 1 ≤ c.max_size)
    (h : c.cache.length ≤ c.max_size) :
    (ECacheOp.apply c op).cache.length ≤ c.max_size := by
  cases op with
  | clear => exact Nat.zero_le _
  | get now k =>
    dsimp only [ECacheOp.apply]
    unfold EmbeddingCache.get
    cases hf : c.cache.find? (fun e => e.key = k) with
    | none => exact h
    | some e =>
      dsimp only
      by_cases ht : now - e.timestamp < c.ttl
      · rw [if_pos ht]; exact h
      · rw [if_neg ht]
        exact le_trans (List.length_filter_le _ _) h
  | set now k v =>
    dsimp only [ECacheOp.apply]
    unfold EmbeddingCache.set
    by_cases hfull : c.max_size ≤ c.cache.length
    · rw [if_pos hfull]
      have hne : c.cache ≠ [] := by
        intro hnil
        rw [hnil] at h hfull
        simp at hfull
        omega
      obtain ⟨m, hm⟩ := oldestEntry_isSome hne
      rw [hm]
      dsimp only
      have hlt := filter_out_mem_length (oldestEntry_spec hm).1
      have hgrow := dictAssign_length k v now (c.cache.filter (fun e => ¬ e.key = m.key))
      omega
    · rw [if_neg hfull]
      dsimp only
      have hgrow := dictAssign_length k v now c.cache
      omega

/-- C8: starting from an empty cache with capacity `max_size ≥ 1`, every
sequence of `get`/`set`/`clear` operations keeps at most `max_size` entries;
and a `set` performed at capacity first evicts exactly the entry with the
oldest insertion timestamp (the first such in insertion order): afterwards a
key is present iff it is the new key, or was present before and is not the
evicted one. -/
theorem C8_embedding_cache_bound_and_eviction (maxSize : ℕ) (ttl : ℚ)
    (ops : List ECacheOp) (hmax : 1 ≤ maxSize) :
    (runECacheOps ⟨maxSize, ttl, []⟩ ops).cache.length ≤ maxSize ∧
    ∀ (c : EmbeddingCache) (now : ℚ) (k : String) (v : List ℚ) (m : ECacheEntry),
      c.cache.length = c.max_size → 1 ≤ c.max_size → oldestEntry c.cache = some m →
      (m ∈ c.cache ∧ (∀ e ∈ c.cache, m.timestamp ≤ e.timestamp) ∧
        ∀ k', (∃ e ∈ (EmbeddingCache.set c now k v).cache, e.key = k') ↔
          (k' = k ∨ ((∃ e ∈ c.cache, e.key = k') ∧ ¬ k' = m.key))) := by
  constructor
  · have main : ∀ (l : List ECacheOp) (c : EmbeddingCache), c.max_size = maxSize →
        c.cache.length ≤ maxSize → (runECacheOps c l).cache.length ≤ maxSize := by
      intro l
      induction l with
      | nil => intro c _ h2; exact h2
      | cons op rest ih =>
        intro c h1 h2
        have hb := ecache_apply_bound c op (h1 ▸ hmax) (h1 ▸ h2)
        have hp := (ecache_apply_preserves c op).1
        show (runECacheOps (ECacheOp.apply c op) rest).cache.length ≤ maxSize
        exact ih _ (hp.trans h1) (h1 ▸ hb)
    exact main ops ⟨maxSize, ttl, []⟩ rfl (by simp)
  · intro c now k v m hlen hmax1 hm
    obtain ⟨hmem, hmin⟩ := oldestEntry_spec hm
    refine ⟨hmem, hmin, ?_⟩
    intro k'
    unfold EmbeddingCache.set
    rw [if_pos (le_of_eq hlen.symm), hm]
    dsimp only
    rw [dictAssign_mem_key, filter_out_mem_key]

/-- C8 (witness): capacity 2, three inserts of distinct keys stay within the
bound; and at the full state `[("a", t=0), ("b", t=1)]` a `set "c"` evicts
exactly `"a"` — checked through the membership characterization at each
key. -/
theorem C8_embedding_cache_bound_and_eviction_witness :
    (runECacheOps ⟨2, 10, []⟩
      [ECacheOp.set 0 "a" [], ECacheOp.set 1 "b" [], ECacheOp.set 2 "c" []]).cache.length ≤ 2 ∧
    ¬ (∃ e ∈ (EmbeddingCache.set ⟨2, 10, [⟨"a", [], 0⟩, ⟨"b", [], 1⟩]⟩ 5 "c" []).cache,
        e.key = "a") ∧
    (∃ e ∈ (EmbeddingCache.set ⟨2, 10, [⟨"a", [], 0⟩, ⟨"b", [], 1⟩]⟩ 5 "c" []).cache,
        e.key = "b") ∧
    (∃ e ∈ (EmbeddingCache.set ⟨2, 10, [⟨"a", [], 0⟩, ⟨"b", [], 1⟩]⟩ 5 "c" []).cache,
        e.key = "c") :=
  ⟨(C8_embedding_cache_bound_and_eviction 2 10
      [ECacheOp.set 0 "a" [], ECacheOp.set 1 "b" [], ECacheOp.set 2 "c" []] (by decide)).1,
   fun hcon =>
     match (((C8_embedding_cache_bound_and_eviction 2 10 [] (by decide)).2
          ⟨2, 10, [⟨"a", [], 0⟩, ⟨"b", [], 1⟩]⟩ 5 "c" [] ⟨"a", [], 0⟩ rfl (by decide)
          (by decide)).2.2 "a").mp hcon with
     | Or.inl h => absurd h (by decide)
     | Or.inr h => h.2 rfl,
   (((C8_embedding_cache_bound_and_eviction 2 10 [] (by decide)).2
      ⟨2, 10, [⟨"a", [], 0⟩, ⟨"b", [], 1⟩]⟩ 5 "c" [] ⟨"a", [], 0⟩ rfl (by decide)
      (by decide)).2.2 "b").mpr (Or.inr ⟨⟨⟨"b", [], 1⟩, by decide, rfl⟩, by decide⟩),
   (((C8_embedding_cache_bound_and_eviction 2 10 [] (by decide)).2
      ⟨2, 10, [⟨"a", [], 0⟩, ⟨"b", [], 1⟩]⟩ 5 "c" [] ⟨"a", [], 0⟩ rfl (by decide)
      (by decide)).2.2 "c").mpr (Or.inl rfl)⟩

/-- Insertion is a permutation of consing. -/
theorem insertDescBySnd_perm (x : VCategory × ℚ) (l : List (VCategory × ℚ)) :
    List.Perm (insertDescBySnd x l) (x :: l) := by
  induction l with
  | nil => exact List.Perm.refl _
  | cons y ys ih =>
    unfold insertDescBySnd
    by_cases h : x.2 ≤ y.2
    · rw [if_pos h]
      exact (ih.cons y).trans (List.Perm.swap x y ys)
    · rw [if_neg h]

/-- Insertion preserves descending sortedness. -/
theorem insertDescBySnd_sorted (x : VCategory × ℚ) (l : List (VCategory × ℚ))
    (h : SortedDesc l) : SortedDesc (insertDescBySnd x l) := by
  induction l with
  | nil => exact List.pairwise_singleton _ _
  | cons y ys ih =>
    unfold insertDescBySnd
    by_cases hle : x.2 ≤ y.2
    · rw [if_pos hle]
      rcases List.pairwise_cons.mp h with ⟨hy, hys⟩
      refine List.pairwise_cons.mpr ⟨?_, ih hys⟩
      intro z hz
      rcases List.mem_cons.mp ((insertDescBySnd_perm x ys).mem_iff.mp hz) with rfl | hz'
      · exact hle
      · exact hy z hz'
    · rw [if_neg hle]
      rcases List.pairwise_cons.mp h with ⟨hy, _⟩
      refine List.pairwise_cons.mpr ⟨?_, h⟩
      intro z hz
      rcases List.mem_cons.mp hz with rfl | hz'
      · exact le_of_not_le hle
      · exact le_trans (hy z hz') (le_of_not_le hle)

/-- In a descending-sorted list whose head scores below `s`, no element
scores `s`. -/
theorem sorted_head_lt_filter_nil (y : VCategory × ℚ) (ys : List (VCategory × ℚ))
    (hsort : SortedDesc (y :: ys)) (s : ℚ) (hy : y.2 < s) :
    (y :: ys).filter (fun p => p.2 = s) = [] := by
  rw [List.filter_eq_nil_iff]
  intro a ha
  rcases List.mem_cons.mp ha with rfl | ha'
  · simpa using ne_of_lt hy
  · have := (List.pairwise_cons.mp hsort).1 a ha'
    simpa using ne_of_lt (lt_of_le_of_lt this hy)

/-- Stability of one insertion: restricted to any fixed score, inserting
appends the new element after the existing ones (or changes nothing). -/
theorem insertDescBySnd_filter (x : VCategory × ℚ) (l : List (VCategory × ℚ))
    (hsort : SortedDesc l) (s : ℚ) :
    (insertDescBySnd x l).filter (fun p => p.2 = s) =
      if x.2 = s then l.filter (fun p => p.2 = s) ++ [x]
      else l.filter (fun p => p.2 = s) := by
  induction l with
  | nil =>
    by_cases hx : x.2 = s
    · rw [if_pos hx]
      simp [insertDescBySnd, hx]
    · rw [if_neg hx]
      simp [insertDescBySnd, hx]
  | cons y ys ih =>
    unfold insertDescBySnd
    rcases List.pairwise_cons.mp hsort with ⟨hy, hys⟩
    by_cases hle : x.2 ≤ y.2
    · rw [if_pos hle]
      by_cases hyv : y.2 = s
      · rw [List.filter_cons_of_pos (by simpa using hyv), ih hys,
          List.filter_cons_of_pos (by simpa using hyv)]
        by_cases hx : x.2 = s
        · rw [if_pos hx, if_pos hx]
          rfl
        · rw [if_neg hx, if_neg hx]
      · rw [List.filter_cons_of_neg (by simpa using hyv), ih hys,
          List.filter_cons_of_neg (by simpa using hyv)]
    · rw [if_neg hle]
      have hylt : y.2 < x.2 := lt_of_not_le hle
      by_cases hx : x.2 = s
      · rw [if_pos hx]
        have hnil : (y :: ys).filter (fun p => p.2 = s) = [] :=
          sorted_head_lt_filter_nil y ys hsort s (hx ▸ hylt)
        rw [List.filter_cons_of_pos (by simpa using hx), hnil]
        simp
      · rw [if_neg hx,
          List.filter_cons_of_neg (by simpa using hx)]

/-- The insertion-sort fold: sortedness, permutation and per-score
stability, generalized over a sorted accumulator. -/
theorem sortFold_props (l : List (VCategory × ℚ)) :
    ∀ (acc : List (VCategory × ℚ)), SortedDesc acc →
      SortedDesc (List.foldl (fun a x => insertDescBySnd x a) acc l) ∧
      List.Perm (List.foldl (fun a x => insertDescBySnd x a) acc l) (acc ++ l) ∧
      ∀ s, (List.foldl (fun a x => insertDescBySnd x a) acc l).filter (fun p => p.2 = s) =
        acc.filter (fun p => p.2 = s) ++ l.filter (fun p => p.2 = s) := by
  induction l with
  | nil =>
    intro acc hacc
    exact ⟨hacc, by simp, fun s => by simp⟩
  | cons x xs ih =>
    intro acc hacc
    have hstep := ih (insertDescBySnd x acc) (insertDescBySnd_sorted x acc hacc)
    rw [List.foldl_cons]
    refine ⟨hstep.1, ?_, ?_⟩
    · refine hstep.2.1.trans ?_
      have h1 : List.Perm (insertDescBySnd x acc ++ xs) ((x :: acc) ++ xs) :=
        (insertDescBySnd_perm x acc).append_right xs
      exact h1.trans List.perm_middle.symm
    · intro s
      rw [hstep.2.2 s, insertDescBySnd_filter x acc hacc s]
      by_cases hx : x.2 = s
      · rw [if_pos hx, List.filter_cons_of_pos (by simpa using hx)]
        simp
      · rw [if_neg hx, List.filter_cons_of_neg (by simpa using hx)]

/-- Every pair produced by the candidate scan passes the threshold and
comes from a category with a present, dimension-matching embedding, scored
by the cosine kernel. -/
theorem similarCandidates_mem {cosSim : List ℚ → List ℚ → ℚ} {query : List ℚ}
    {threshold : ℚ} {categories : List VCategory} {p : VCategory × ℚ}
    (h : p ∈ similarCandidates cosSim query threshold categories) :
    threshold ≤ p.2 ∧ p.1.embedding_vector ≠ [] ∧
      p.1.embedding_vector.length = query.length ∧
      p.2 = cosSim query p.1.embedding_vector := by
  unfold similarCandidates at h
  rw [List.mem_filterMap] at h
  obtain ⟨c, _, hf⟩ := h
  by_cases h1 : c.embedding_vector = []
  · rw [if_pos h1] at hf; cases hf
  · rw [if_neg h1] at hf
    by_cases h2 : ¬ query.length = c.embedding_vector.length
    · rw [if_pos h2] at hf; cases hf
    · rw [if_neg h2] at hf
      dsimp only at hf
      by_cases h3 : threshold ≤ cosSim query c.embedding_vector
      · rw [if_pos h3] at hf
        cases hf
        exact ⟨h3, h1, (not_not.mp h2).symm, rfl⟩
      · rw [if_neg h3] at hf; cases hf

/-- C5: the in-memory similarity search returns only pairs scoring at least
the threshold, sorted descending by score, at most `limit` of them, each
backed by a present embedding of the query's dimension (mismatched or
missing embeddings are skipped, never scored); and ties keep the original
iteration order: restricted to any fixed score, the output is a prefix of
the candidate scan in input order. -/
theorem C5_find_similar_in_memory_spec (cosSim : List ℚ → List ℚ → ℚ) (maxCheck : ℕ)
    (db : List VCategory) (query : List ℚ) (threshold : ℚ) (limit : ℕ) :
    (∀ p ∈ find_similar_in_memory cosSim maxCheck db query threshold limit,
      threshold ≤ p.2) ∧
    List.Pairwise (fun a b => b.2 ≤ a.2)
      (find_similar_in_memory cosSim maxCheck db query threshold limit) ∧
    (find_similar_in_memory cosSim maxCheck db query threshold limit).length ≤ limit ∧
    (∀ p ∈ find_similar_in_memory cosSim maxCheck db query threshold limit,
      p.1.embedding_vector ≠ [] ∧ p.1.embedding_vector.length = query.length) ∧
    (∀ s : ℚ,
      (find_similar_in_memory cosSim maxCheck db query threshold limit).filter
          (fun p => p.2 = s) <+:
        (similarCandidates cosSim query threshold (get_categories db maxCheck)).filter
          (fun p => p.2 = s)) := by
  have hfold := sortFold_props
    (similarCandidates cosSim query threshold (get_categories db maxCheck)) [] List.Pairwise.nil
  have hmem : ∀ p ∈ find_similar_in_memory cosSim maxCheck db query threshold limit,
      p ∈ similarCandidates cosSim query threshold (get_categories db maxCheck) := by
    intro p hp
    have h1 : p ∈ sortDescBySnd
        (similarCandidates cosSim query threshold (get_categories db maxCheck)) :=
      List.take_subset _ _ hp
    have h2 := hfold.2.1.mem_iff.mp h1
    simpa using h2
  refine ⟨fun p hp => (similarCandidates_mem (hmem p hp)).1, ?_, ?_,
    fun p hp => ⟨(similarCandidates_mem (hmem p hp)).2.1,
      (similarCandidates_mem (hmem p hp)).2.2.1⟩, ?_⟩
  · exact List.Pairwise.sublist (List.take_sublist _ _) hfold.1
  · exact List.length_take_le _ _
  · intro s
    have hpre : find_similar_in_memory cosSim maxCheck db query threshold limit <+:
        sortDescBySnd (similarCandidates cosSim query threshold (get_categories db maxCheck)) :=
      List.take_prefix _ _
    have hfil := hpre.filter (fun p => decide (p.2 = s))
    have heq := hfold.2.2 s
    simpa [sortDescBySnd, heq] using hfil

set_option maxRecDepth 10000 in
/-- C4 (code bug): in the claim's scenario — previous category `"finance"`
resolvable with a usable embedding, subject continuing the thread,
similarity 1 at or above the thread-consistency threshold — the source
increments the category's email count (3 → 4) and never consults the
similarity matcher, but then raises `AttributeError` reading
`request.user_id` (service.py line 289; `ThreadedEmailRequest` defines no
such field); the `except` handler's `_fallback_response` counts a
`"General"` row and raises again at `request.user_id` (line 388), so the
exception propagates and no response assigning the previous category is
ever returned — contradicting the claimed
confidence-`min(0.95, sim + boost)` response. -/
theorem C4_thread_consistency_code_bug :
    is_thread_continuation_opt financeThreadReq.subject financeThreadReq.thread_subject =
      true ∧
    threadTestEnv.threadConsistencyThreshold ≤
      calculate_similarity threadTestEnv.cosSim
        (generate_embedding threadTestEnv.D threadTestEnv.encode
          threadTestEnv.embeddingCacheTtl 0 []
          (extract_meaningful_text 200 500 financeThreadReq.subject
            financeThreadReq.body)).vec
        [1, 0, 0] ∧
    (categorize_threaded_body threadTestEnv true 0 ⟨emptyQM, [], financeDb, 0⟩
        financeThreadReq).1 = Except.error (PyErr.attributeError "user_id") ∧
    (categorize_threaded_body threadTestEnv true 0 ⟨emptyQM, [], financeDb, 0⟩
        financeThreadReq).2.db =
      [{ id := 1, name := "finance", description := some "money matters",
         embedding := some [1, 0, 0], sample_content := none, email_count := 4 }] ∧
    (categorize_threaded_email threadTestEnv true 0 ⟨emptyQM, [], financeDb, 0⟩
        financeThreadReq).1 = Except.error (PyErr.attributeError "user_id") ∧
    (categorize_threaded_email threadTestEnv true 0 ⟨emptyQM, [], financeDb, 0⟩
        financeThreadReq).2.matcherCalls = 0 ∧
    (categorize_threaded_email threadTestEnv true 0 ⟨emptyQM, [], financeDb, 0⟩
        financeThreadReq).2.db =
      [{ id := 1, name := "finance", description := some "money matters",
         embedding := some [1, 0, 0], sample_content := none, email_count := 4 },
       { id := 2, name := "General", description := some "General email category",
         embedding := some [], sample_content := none, email_count := 1 }] := by
  exact ⟨by decide, by decide, by decide, by decide, by decide, by decide, by decide⟩

end Bluebeever
